import Mathlib

/-
Verification of the guitar-tuner core against its natural-language
specification.

The repository ships several historical variants of one `GuitarTuner`
class.  `src/app.js` contains two of them:

* variant 1 (the autocorrelation tuner, first class in `app.js`): per-tick
  pitch detection (`detectPitch`), exponential frequency smoothing with
  factor 0.35, tolerance 15 cents, a note-name safeguard, and a
  confirmation timer that re-validates before advancing;
* variant 2 (the pitchy-based tuner, second class in `app.js`): a clarity
  threshold, tolerance 8 cents, a guarded cents converter
  (`frequencyToCents` returning 0 for non-positive input) and an explicit
  negative-modulo correction in `frequencyToNote`.

`src/unnamed/part_000` is a further variant whose smoother has adaptive
jump handling (factor 0.3, jump factor 0.5).

JS numbers are modelled as real numbers, JS `%` as the truncated-division
remainder, `Math.round` as `round` (both are `floor (x + 1/2)`),
`Math.floor` of a quotient of integers as `Int.fdiv`, and `null`/absence
as `Option`.  DOM access, logging and the circle-offset animation state
are UI concerns outside the core and are omitted.  Timer scheduling is
modelled by storing the armed `setTimeout` together with the values its
closure captured, and by a `Step` relation whose `fire` event can only
run a timer that is still armed (`clearTimeout` removes it).
-/

open Classical

/-- JS `%` on integers: the truncated-division remainder (the sign follows
the dividend, as in JavaScript). -/
def jsMod (a b : ℤ) : ℤ := if 0 ≤ a then a % b else -((-a) % b)

/-- `NOTE_NAMES` from the sources: the twelve chromatic names starting at C. -/
def NOTE_NAMES : List String :=
  ["C", "C#", "D", "D#", "E", "F"] ++ ["F#", "G", "G#", "A", "A#", "B"]

/-- One record of the `STRING_FREQUENCIES` table. -/
structure StringSpec where
  note : String
  frequency : ℝ
  label : String

/-- `STRING_FREQUENCIES`: the fixed standard-tuning table (low E to high E). -/
noncomputable def STRING_FREQUENCIES : List StringSpec :=
  [⟨"E", 82.41, "sixth"⟩, ⟨"A", 110.00, "fifth"⟩, ⟨"D", 146.83, "fourth"⟩,
   ⟨"G", 196.00, "third"⟩, ⟨"B", 246.94, "second"⟩, ⟨"E", 329.63, "first"⟩]

/-- `this.STRING_FREQUENCIES[i]`; the dummy record is never reached for
indices 0..5 (the only reachable ones). -/
noncomputable def stringAt (i : ℕ) : StringSpec :=
  STRING_FREQUENCIES.getD i ⟨"", 0, ""⟩

/-- Variant 1 `TUNING_TOLERANCE` (cents). -/
noncomputable def TUNING_TOLERANCE : ℝ := 15

/-- Variant 1 `frequencySmoothingFactor`. -/
noncomputable def frequencySmoothingFactor : ℝ := 0.35

/-- `A4` reference frequency of variant 1. -/
noncomputable def A4 : ℝ := 440

/-- Variant 1 `frequencyToCents` (no input guard): `1200 * log2(freq/target)`. -/
noncomputable def frequencyToCents (freq target : ℝ) : ℝ :=
  1200 * Real.logb 2 (freq / target)

/-- Variant 1 `getNoteName`: nearest-semitone name relative to A4 = 440 Hz,
with a single modular table lookup and no negative-modulo correction
(`NOTE_NAMES[index]` is `undefined`, i.e. `none`, for a negative index). -/
noncomputable def getNoteName (freq : ℝ) : Option String :=
  let semitones := 12 * Real.logb 2 (freq / A4)
  let rounded := round semitones
  let index := jsMod (rounded + 9 + 12 * 4) 12
  if index < 0 then none else NOTE_NAMES[index.toNat]?

/-- Core mutable state of the variant-1 tuner.  `tuningTimeout` is the armed
confirmation timer together with the data captured by its closure: the
`frequency` argument of the arming `updateTuning` call and the current
string index (the closure captures `current`, which is determined by the
index since the table is immutable). -/
structure TunerState where
  currentStringIndex : ℕ
  isTuned : Bool
  allStringsTuned : Bool
  smoothedFrequency : Option ℝ
  hasSound : Bool
  tuningTimeout : Option (ℝ × ℕ)

/-- Constructor state of variant 1. -/
def initState : TunerState :=
  { currentStringIndex := 0, isTuned := false, allStringsTuned := false,
    smoothedFrequency := none, hasSound := false, tuningTimeout := none }

/-- Variant 1 `moveToNextString` (its `updateUI` call touches only the DOM). -/
noncomputable def moveToNextString (s : TunerState) : TunerState :=
  let s1 : TunerState := { s with isTuned := false }
  if s1.currentStringIndex < STRING_FREQUENCIES.length - 1 then
    { s1 with currentStringIndex := s1.currentStringIndex + 1 }
  else
    { s1 with allStringsTuned := true }

/-- Variant 1 `resetTuning` (DOM work omitted; `smoothedOffset` is UI-only). -/
def resetTuning (_s : TunerState) : TunerState :=
  { currentStringIndex := 0, allStringsTuned := false, isTuned := false,
    smoothedFrequency := none, hasSound := false, tuningTimeout := none }

/-- The in-tolerance-and-correct-note condition of variant 1 at string
index `i` and frequency `f`: the conjunction `updateTuning` computes as
`centered && isCorrectNote` and the timer callback re-computes as
`|finalCents| <= TUNING_TOLERANCE && finalCorrectNote`. -/
noncomputable def inTolNote (i : ℕ) (f : ℝ) : Prop :=
  |frequencyToCents f (stringAt i).frequency| ≤ TUNING_TOLERANCE ∧
    getNoteName f = some (stringAt i).note

/-- Variant 1 `updateTuning` stripped of DOM writes.  The JS truthiness test
`if (!frequency)` is false for `null` and for `0`.  The two trailing `if`
statements of the source are kept in sequence. -/
noncomputable def updateTuning (s : TunerState) (frequency : Option ℝ) : TunerState :=
  match frequency with
  | none => { s with isTuned := false, tuningTimeout := none }
  | some f =>
    if f = 0 then { s with isTuned := false, tuningTimeout := none }
    else
      let canConfirm :=
        |frequencyToCents f (stringAt s.currentStringIndex).frequency| ≤ TUNING_TOLERANCE ∧
          s.hasSound = true ∧ getNoteName f = some (stringAt s.currentStringIndex).note
      let s1 :=
        if s.isTuned = false ∧ canConfirm then
          { s with isTuned := true, tuningTimeout := some (f, s.currentStringIndex) }
        else s
      if s1.isTuned = true ∧ ¬canConfirm then
        { s1 with isTuned := false, tuningTimeout := none }
      else s1

/-- The variant-1 `setInterval` callback for one tick, as a function of the
`detectPitch` result.  `if (freq)` is false for `null` and `0`; the first
smoothing branch `if (!this.smoothedFrequency)` likewise treats a stored
`0` as absent. -/
noncomputable def tick (s : TunerState) (freq : Option ℝ) : TunerState :=
  match freq with
  | some f =>
    if f = 0 then
      updateTuning { s with hasSound := false, smoothedFrequency := none } none
    else
      let sm :=
        match s.smoothedFrequency with
        | none => f
        | some sf => if sf = 0 then f else sf + (f - sf) * frequencySmoothingFactor
      updateTuning { s with hasSound := true, smoothedFrequency := some sm } (some sm)
  | none => updateTuning { s with hasSound := false, smoothedFrequency := none } none

/-- The variant-1 confirmation-timer callback: re-validate with the latest
smoothed frequency (`this.smoothedFrequency || frequency`, so the captured
`frequency` is used only if the smoothed value is absent or `0`), advance
on success, drop back to listening on failure, and clear the timer slot. -/
noncomputable def timerFire (s : TunerState) (capturedFreq : ℝ) (capturedIdx : ℕ) :
    TunerState :=
  let s1 :=
    if s.isTuned = true ∧ s.hasSound = true then
      let finalFreq :=
        match s.smoothedFrequency with
        | some sf => if sf = 0 then capturedFreq else sf
        | none => capturedFreq
      if |frequencyToCents finalFreq (stringAt capturedIdx).frequency| ≤ TUNING_TOLERANCE ∧
          getNoteName finalFreq = some (stringAt capturedIdx).note then
        moveToNextString s
      else { s with isTuned := false }
    else s
  { s1 with tuningTimeout := none }

/-- Scheduler events of the variant-1 event loop.  Tick inputs are
`detectPitch` results, hence `none` or a frequency in the 50-400 band
(section C3); a timer can only fire while it is still armed, since
`clearTimeout` also cancels a queued callback. -/
inductive Step : TunerState → TunerState → Prop
  | tickEv (s : TunerState) (freq : Option ℝ)
      (hband : ∀ f, freq = some f → 50 ≤ f ∧ f ≤ 400) : Step s (tick s freq)
  | fireEv (s : TunerState) (cf : ℝ) (ci : ℕ)
      (harmed : s.tuningTimeout = some (cf, ci)) : Step s (timerFire s cf ci)
  | resetEv (s : TunerState) : Step s (resetTuning s)

/-- States reachable from the constructor state by scheduler events. -/
inductive Reachable : TunerState → Prop
  | init : Reachable initState
  | step {s t : TunerState} (hs : Reachable s) (hst : Step s t) : Reachable t

/-- The session invariant maintained by every event (proved below):
the index stays in the table, `allStringsTuned` only holds at index 5,
smoothed values stay in the estimator band, and an armed timer implies a
tuned, sounding state whose payload index is the current one. -/
def SessionInv (s : TunerState) : Prop :=
  s.currentStringIndex ≤ 5 ∧
  (s.allStringsTuned = true → s.currentStringIndex = 5) ∧
  (∀ sf, s.smoothedFrequency = some sf → 50 ≤ sf ∧ sf ≤ 400) ∧
  (∀ cf ci, s.tuningTimeout = some (cf, ci) →
    ci = s.currentStringIndex ∧ s.isTuned = true ∧ s.hasSound = true ∧
      ∃ sf, s.smoothedFrequency = some sf)

/-- The equal-tempered frequency `K` semitones below A4: `440 * 2^(-K/12)`.
Used as concrete tick input when exercising the machine. -/
noncomputable def fTone (K : ℕ) : ℝ := 440 * (2 : ℝ) ^ (-(K : ℝ) / 12)

/-- Trace: first tick with a low-E tone arms the confirmation timer. -/
noncomputable def ws1 : TunerState := tick initState (some (fTone 29))

/-- Trace: the timer fires and the machine advances to string index 1. -/
noncomputable def ws2 : TunerState := timerFire ws1 (fTone 29) 0

/-- Trace: a silent tick clears the smoothing memory. -/
noncomputable def ws3 : TunerState := tick ws2 none

/-- Trace: an A-string tone arms the timer at index 1. -/
noncomputable def ws4 : TunerState := tick ws3 (some (fTone 24))

/-- Trace: advance to index 2. -/
noncomputable def ws5 : TunerState := timerFire ws4 (fTone 24) 1

/-- Trace: silent tick. -/
noncomputable def ws6 : TunerState := tick ws5 none

/-- Trace: a D-string tone arms the timer at index 2. -/
noncomputable def ws7 : TunerState := tick ws6 (some (fTone 19))

/-- Trace: advance to index 3. -/
noncomputable def ws8 : TunerState := timerFire ws7 (fTone 19) 2

/-- Trace: silent tick. -/
noncomputable def ws9 : TunerState := tick ws8 none

/-- Trace: a G-string tone arms the timer at index 3. -/
noncomputable def ws10 : TunerState := tick ws9 (some (fTone 14))

/-- Trace: advance to index 4. -/
noncomputable def ws11 : TunerState := timerFire ws10 (fTone 14) 3

/-- Trace: silent tick. -/
noncomputable def ws12 : TunerState := tick ws11 none

/-- Trace: a B-string tone arms the timer at index 4. -/
noncomputable def ws13 : TunerState := tick ws12 (some (fTone 10))

/-- Trace: advance to index 5. -/
noncomputable def ws14 : TunerState := timerFire ws13 (fTone 10) 4

/-- Trace: silent tick. -/
noncomputable def ws15 : TunerState := tick ws14 none

/-- Trace: a high-E tone arms the timer at index 5. -/
noncomputable def ws16 : TunerState := tick ws15 (some (fTone 5))

/-- Trace: the sixth confirmation sets `allStringsTuned`. -/
noncomputable def ws17 : TunerState := timerFire ws16 (fTone 5) 5

/-! Variant 1 `detectPitch`: RMS gate, normalized autocorrelation over lags
`8 <= lag < size/2`, confidence threshold, band filter. -/

/-- The three per-lag sums of the autocorrelation loop:
`(corr, normA, normB)` accumulated over `i < size - lag`. -/
noncomputable def corrSums (buf : List ℝ) (lag : ℕ) : ℝ × ℝ × ℝ :=
  (List.range (buf.length - lag)).foldl
    (fun acc i =>
      (acc.1 + buf.getD i 0 * buf.getD (i + lag) 0,
       acc.2.1 + buf.getD i 0 * buf.getD i 0,
       acc.2.2 + buf.getD (i + lag) 0 * buf.getD (i + lag) 0))
    (0, 0, 0)

/-- The body of the variant-1 autocorrelation loop for one candidate lag:
normalize the correlation (`Math.sqrt(normA*normB) || 1e-9` replaces a zero,
i.e. falsy, denominator by `1e-9`) and keep the lag when the normalized
correlation strictly beats the best so far.  The accumulator is
`(bestLag, bestCorr)`, starting from `(-1, 0)`. -/
noncomputable def corrStep (buf : List ℝ) (acc : ℤ × ℝ) (lag : ℕ) : ℤ × ℝ :=
  let sums := corrSums buf lag
  let denom :=
    if Real.sqrt (sums.2.1 * sums.2.2) = 0 then 1e-9
    else Real.sqrt (sums.2.1 * sums.2.2)
  let normalized := sums.1 / denom
  if acc.2 < normalized then ((lag : ℤ), normalized) else acc

/-- Variant 1 `detectPitch` as a pure function of the captured frame and the
sample rate: RMS gate, loop over the integer lags `8 <= lag < size / 2`,
confidence threshold `0.35`, conversion `sampleRate / bestLag`, band filter. -/
noncomputable def detectPitch (buf : List ℝ) (sampleRate : ℝ) : Option ℝ :=
  let n := buf.length
  let rms := Real.sqrt ((buf.foldl (fun acc v => acc + v * v) 0) / n)
  if rms < 0.0006 then none
  else
    let lags := List.range' 8 ((n + 1) / 2 - 8)
    let best := lags.foldl (corrStep buf) ((-1 : ℤ), (0 : ℝ))
    if best.1 = -1 ∨ best.2 < 0.35 then none
    else
      let freq := sampleRate / (best.1 : ℝ)
      if freq < 50 ∨ 400 < freq then none
      else some freq

/-! Variant 2 (the pitchy-based class, second half of `app.js`). -/

/-- Variant 2 `TUNING_TOLERANCE` (cents). -/
noncomputable def TUNING_TOLERANCE2 : ℝ := 8

/-- Variant 2 `CLARITY_THRESHOLD`. -/
noncomputable def CLARITY_THRESHOLD : ℝ := 0.7

/-- Variant 2 `A4_FREQUENCY`. -/
noncomputable def A4_FREQUENCY : ℝ := 440

/-- Variant 2 `frequencyToCents` with its input guard:
`if (!detectedFreq || detectedFreq <= 0) return 0` (the falsy cases `null`
and `0` are subsumed by `<= 0` for a number argument). -/
noncomputable def frequencyToCents2 (detectedFreq targetFreq : ℝ) : ℝ :=
  if detectedFreq ≤ 0 then 0 else 1200 * Real.logb 2 (detectedFreq / targetFreq)

/-- The result record of variant 2 `frequencyToNote`; `name` is the table
lookup `NOTE_NAMES[noteIndex]`, which in JS is `undefined` out of range. -/
structure NoteInfo where
  name : Option String
  octave : ℤ
  frequency : ℝ

/-- Variant 2 `frequencyToNote`: explicit negative-modulo correction,
octave via `Math.floor(semitonesFromC0 / 12)` (floor division). -/
noncomputable def frequencyToNote (frequency : ℝ) : Option NoteInfo :=
  if frequency ≤ 0 then none
  else
    let semitonesFromA4 := 12 * Real.logb 2 (frequency / A4_FREQUENCY)
    let roundedSemitones := round semitonesFromA4
    let semitonesFromC0 := roundedSemitones + 57
    let octave := Int.fdiv semitonesFromC0 12
    let noteIndex0 := jsMod semitonesFromC0 12
    let noteIndex := if noteIndex0 < 0 then noteIndex0 + 12 else noteIndex0
    some { name := NOTE_NAMES[noteIndex.toNat]?, octave := octave,
           frequency := frequency }

/-- The acceptance filter of variant 2 `getPitch` applied to the
`(pitch, clarity)` pair returned by the external pitchy detector:
`pitch > 0 && clarity > CLARITY_THRESHOLD && pitch >= 50 && pitch <= 400`. -/
noncomputable def getPitchAccept (pitch clarity : ℝ) : Option ℝ :=
  if 0 < pitch ∧ CLARITY_THRESHOLD < clarity ∧ 50 ≤ pitch ∧ pitch ≤ 400 then
    some pitch
  else none

/-- Core state of the variant-2 tuner (fields the tick logic mutates).
Its timer closure captures nothing that survives, so the armed timer is a
unit marker. -/
structure Tuner2State where
  currentStringIndex : ℕ
  isTuned : Bool
  allStringsTuned : Bool
  tuningTimeout : Option Unit

/-- Variant 2 `updateTuning` stripped of DOM writes: the guard
`if (!frequency || frequency <= 0)` clears the timer and the tuned flag and
returns before any cents comparison; otherwise an `if / else if` pair arms
or cancels the confirmation timer. -/
noncomputable def updateTuning2 (s : Tuner2State) (frequency : Option ℝ) : Tuner2State :=
  match frequency with
  | none => { s with isTuned := false, tuningTimeout := none }
  | some f =>
    if f ≤ 0 then { s with isTuned := false, tuningTimeout := none }
    else
      let cents := frequencyToCents2 f (stringAt s.currentStringIndex).frequency
      if s.isTuned = false ∧ |cents| ≤ TUNING_TOLERANCE2 then
        { s with isTuned := true, tuningTimeout := some () }
      else if ¬|cents| ≤ TUNING_TOLERANCE2 then
        { s with isTuned := false, tuningTimeout := none }
      else s

/-! The `part_000` variant's adaptive frequency smoother. -/

/-- `part_000` `frequencySmoothingFactor`. -/
noncomputable def frequencySmoothingFactorP0 : ℝ := 0.3

/-- The smoothing update of `part_000`'s tick (lines 382-396): initialize
from the raw reading when no memory exists, otherwise smooth with factor
0.3 when the jump is strictly below 10 percent of the smoothed value and
with factor 0.5 otherwise. -/
noncomputable def smoothUpdateP0 (prev : Option ℝ) (frequency : ℝ) : ℝ :=
  match prev with
  | none => frequency
  | some s =>
    if |frequency - s| < s * 0.1 then
      s + (frequency - s) * frequencySmoothingFactorP0
    else
      s + (frequency - s) * 0.5

/-- The smoothing update law exactly as the specification words it
(claim C5): a factor of 0.5 when `|raw - smoothed| > smoothed * 0.1` and
the fixed factor otherwise.  Kept separate from `smoothUpdateP0` so the
two can be compared. -/
noncomputable def smoothSpecC5 (s r : ℝ) : ℝ :=
  if |r - s| > s * 0.1 then s + (r - s) * 0.5
  else s + (r - s) * frequencySmoothingFactorP0

/-! Basic facts about the string table. -/

lemma stringAt0 : stringAt 0 = ⟨"E", 82.41, "sixth"⟩ := rfl

lemma stringAt1 : stringAt 1 = ⟨"A", 110.00, "fifth"⟩ := rfl

lemma stringAt2 : stringAt 2 = ⟨"D", 146.83, "fourth"⟩ := rfl

lemma stringAt3 : stringAt 3 = ⟨"G", 196.00, "third"⟩ := rfl

lemma stringAt4 : stringAt 4 = ⟨"B", 246.94, "second"⟩ := rfl

lemma stringAt5 : stringAt 5 = ⟨"E", 329.63, "first"⟩ := rfl

lemma STRING_FREQUENCIES_length : STRING_FREQUENCIES.length = 6 := rfl

/-! Bounding `logb 2` of a positive real through integer powers. -/

lemma logb2_le_of_pow_le {r : ℝ} (hr : 0 < r) {num den : ℕ} (hden : 0 < den)
    (h : r ^ den ≤ 2 ^ num) : Real.logb 2 r ≤ (num : ℝ) / den := by
  have h1 : Real.logb 2 (r ^ den) ≤ Real.logb 2 ((2 : ℝ) ^ num) :=
    (Real.logb_le_logb one_lt_two (pow_pos hr den) (pow_pos two_pos num)).mpr h
  rw [Real.logb_pow, Real.logb_pow, Real.logb_self_eq_one one_lt_two, mul_one] at h1
  rw [le_div_iff₀ (by exact_mod_cast hden : (0 : ℝ) < den)]
  nlinarith [h1]

lemma le_logb2_of_pow_le {r : ℝ} (hr : 0 < r) {num den : ℕ} (hden : 0 < den)
    (h : 2 ^ num ≤ r ^ den) : (num : ℝ) / den ≤ Real.logb 2 r := by
  have h1 : Real.logb 2 ((2 : ℝ) ^ num) ≤ Real.logb 2 (r ^ den) :=
    (Real.logb_le_logb one_lt_two (pow_pos two_pos num) (pow_pos hr den)).mpr h
  rw [Real.logb_pow, Real.logb_pow, Real.logb_self_eq_one one_lt_two, mul_one] at h1
  rw [div_le_iff₀ (by exact_mod_cast hden : (0 : ℝ) < den)]
  nlinarith [h1]

/-! Facts about the test tones `fTone K`. -/

lemma fTone_pos (K : ℕ) : 0 < fTone K := by
  unfold fTone
  positivity

lemma fTone_pow_mul (K : ℕ) : fTone K ^ 12 * 2 ^ K = (440 : ℝ) ^ 12 := by
  unfold fTone
  rw [mul_pow]
  have h2 : ((2 : ℝ) ^ (-(K : ℝ) / 12)) ^ (12 : ℕ) = (2 : ℝ) ^ (-(K : ℝ)) := by
    rw [← Real.rpow_natCast ((2 : ℝ) ^ (-(K : ℝ) / 12)) 12,
      ← Real.rpow_mul (by norm_num : (0 : ℝ) ≤ 2)]
    norm_num
  rw [h2, Real.rpow_neg (by norm_num : (0 : ℝ) ≤ 2), Real.rpow_natCast]
  have h3 : (2 : ℝ) ^ K ≠ 0 := by positivity
  field_simp

lemma fTone_le (K : ℕ) {q : ℝ} (hq : 0 < q)
    (h : (440 : ℝ) ^ 12 ≤ q ^ 12 * 2 ^ K) : fTone K ≤ q := by
  by_contra hc
  push_neg at hc
  have h1 : q ^ 12 < fTone K ^ 12 := pow_lt_pow_left₀ hc hq.le (by norm_num)
  have h2 : q ^ 12 * 2 ^ K < fTone K ^ 12 * 2 ^ K := by
    have hp : (0 : ℝ) < 2 ^ K := by positivity
    exact (mul_lt_mul_right hp).mpr h1
  rw [fTone_pow_mul] at h2
  linarith

lemma le_fTone (K : ℕ) {q : ℝ} (_hq : 0 ≤ q)
    (h : q ^ 12 * 2 ^ K ≤ (440 : ℝ) ^ 12) : q ≤ fTone K := by
  by_contra hc
  push_neg at hc
  have h1 : fTone K ^ 12 < q ^ 12 := pow_lt_pow_left₀ hc (fTone_pos K).le (by norm_num)
  have h2 : fTone K ^ 12 * 2 ^ K < q ^ 12 * 2 ^ K := by
    have hp : (0 : ℝ) < 2 ^ K := by positivity
    exact (mul_lt_mul_right hp).mpr h1
  rw [fTone_pow_mul] at h2
  linarith

lemma fTone_band (K : ℕ) (h1 : (50 : ℝ) ^ 12 * 2 ^ K ≤ 440 ^ 12)
    (h2 : (440 : ℝ) ^ 12 ≤ 400 ^ 12 * 2 ^ K) : 50 ≤ fTone K ∧ fTone K ≤ 400 :=
  ⟨le_fTone K (by norm_num) h1, fTone_le K (by norm_num) h2⟩

lemma band29 : 50 ≤ fTone 29 ∧ fTone 29 ≤ 400 := fTone_band 29 (by norm_num) (by norm_num)

lemma band24 : 50 ≤ fTone 24 ∧ fTone 24 ≤ 400 := fTone_band 24 (by norm_num) (by norm_num)

lemma band19 : 50 ≤ fTone 19 ∧ fTone 19 ≤ 400 := fTone_band 19 (by norm_num) (by norm_num)

lemma band14 : 50 ≤ fTone 14 ∧ fTone 14 ≤ 400 := fTone_band 14 (by norm_num) (by norm_num)

lemma band10 : 50 ≤ fTone 10 ∧ fTone 10 ≤ 400 := fTone_band 10 (by norm_num) (by norm_num)

lemma band5 : 50 ≤ fTone 5 ∧ fTone 5 ≤ 400 := fTone_band 5 (by norm_num) (by norm_num)

/-- Tolerance glue: if `2^(20K) * t^240` is within a factor of `2^3` of
`440^240` on both sides, the tone `fTone K` is within 15 cents of `t`
(because `(fTone K / t)^240 * (2^(20K) * t^240) = 440^240` and
`3/240 = 15/1200` of an octave). -/
lemma abs_cents_fTone_le (K : ℕ) {t : ℝ} (ht : 0 < t)
    (hlo : (2 : ℝ) ^ (20 * K) * t ^ 240 ≤ 2 ^ 3 * 440 ^ 240)
    (hhi : (440 : ℝ) ^ 240 ≤ 2 ^ 3 * ((2 : ℝ) ^ (20 * K) * t ^ 240)) :
    |frequencyToCents (fTone K) t| ≤ TUNING_TOLERANCE := by
  have hrpos : 0 < fTone K / t := div_pos (fTone_pos K) ht
  have hXpos : (0 : ℝ) < (2 : ℝ) ^ (20 * K) * t ^ 240 := by positivity
  have h1 : fTone K ^ 240 * 2 ^ (20 * K) = (440 : ℝ) ^ 240 := by
    have h2 := congrArg (· ^ (20 : ℕ)) (fTone_pow_mul K)
    simp only [mul_pow, ← pow_mul] at h2
    rw [show 12 * 20 = 240 from rfl, show ∀ K : ℕ, K * 20 = 20 * K from fun K => Nat.mul_comm K 20] at h2
    exact h2
  have hkey : (fTone K / t) ^ 240 * ((2 : ℝ) ^ (20 * K) * t ^ 240) = (440 : ℝ) ^ 240 := by
    have ht240 : (t : ℝ) ^ 240 ≠ 0 := by positivity
    rw [div_pow, div_mul_eq_mul_div, div_eq_iff ht240]
    linear_combination (t ^ 240 : ℝ) * h1
  have hup : (fTone K / t) ^ 240 ≤ 2 ^ 3 := by
    rw [← mul_le_mul_right hXpos, hkey]
    exact hhi
  have hdown : (1 : ℝ) ≤ (2 : ℝ) ^ 3 * (fTone K / t) ^ 240 := by
    rw [← mul_le_mul_right hXpos, one_mul, mul_assoc, hkey]
    exact hlo
  have hA : Real.logb 2 (fTone K / t) ≤ (3 : ℝ) / 240 := by
    have := logb2_le_of_pow_le hrpos (show 0 < 240 by norm_num) hup
    simpa using this
  have hC : -(3 : ℝ) / 240 ≤ Real.logb 2 (fTone K / t) := by
    have h8 : ((2 : ℝ) ^ 3)⁻¹ ≤ (fTone K / t) ^ 240 := by
      rw [inv_eq_one_div, div_le_iff₀ (by positivity : (0 : ℝ) < (2 : ℝ) ^ 3)]
      nlinarith [hdown]
    have h9 : Real.logb 2 (((2 : ℝ) ^ 3)⁻¹) ≤ Real.logb 2 ((fTone K / t) ^ 240) :=
      (Real.logb_le_logb one_lt_two (by positivity) (by positivity)).mpr h8
    rw [Real.logb_inv, Real.logb_pow, Real.logb_pow,
      Real.logb_self_eq_one one_lt_two, mul_one] at h9
    nlinarith [h9]
  unfold frequencyToCents TUNING_TOLERANCE
  rw [abs_le]
  constructor <;> nlinarith [hA, hC]

lemma cents29 : |frequencyToCents (fTone 29) (stringAt 0).frequency| ≤ TUNING_TOLERANCE := by
  rw [stringAt0]
  exact abs_cents_fTone_le 29 (by norm_num) (by norm_num) (by norm_num)

lemma fTone24_eq : fTone 24 = 110 := by
  unfold fTone
  rw [show -((24 : ℕ) : ℝ) / 12 = ((-2 : ℤ) : ℝ) by norm_num, Real.rpow_intCast]
  norm_num

lemma cents24 : |frequencyToCents (fTone 24) (stringAt 1).frequency| ≤ TUNING_TOLERANCE := by
  rw [stringAt1, fTone24_eq]
  unfold frequencyToCents TUNING_TOLERANCE
  rw [show ((⟨"A", 110.00, "fifth"⟩ : StringSpec).frequency) = (110 : ℝ) by norm_num]
  rw [div_self (by norm_num : (110 : ℝ) ≠ 0), Real.logb_one]
  norm_num

lemma cents19 : |frequencyToCents (fTone 19) (stringAt 2).frequency| ≤ TUNING_TOLERANCE := by
  rw [stringAt2]
  exact abs_cents_fTone_le 19 (by norm_num) (by norm_num) (by norm_num)

lemma cents14 : |frequencyToCents (fTone 14) (stringAt 3).frequency| ≤ TUNING_TOLERANCE := by
  rw [stringAt3]
  exact abs_cents_fTone_le 14 (by norm_num) (by norm_num) (by norm_num)

lemma cents10 : |frequencyToCents (fTone 10) (stringAt 4).frequency| ≤ TUNING_TOLERANCE := by
  rw [stringAt4]
  exact abs_cents_fTone_le 10 (by norm_num) (by norm_num) (by norm_num)

lemma cents5 : |frequencyToCents (fTone 5) (stringAt 5).frequency| ≤ TUNING_TOLERANCE := by
  rw [stringAt5]
  exact abs_cents_fTone_le 5 (by norm_num) (by norm_num) (by norm_num)

/-- For an exact equal-tempered tone the note-name computation is exact:
the rounded semitone count is the integer `-K`. -/
lemma getNoteName_fTone (K : ℕ) :
    getNoteName (fTone K) =
      (if jsMod (-(K : ℤ) + 9 + 12 * 4) 12 < 0 then none
       else NOTE_NAMES[(jsMod (-(K : ℤ) + 9 + 12 * 4) 12).toNat]?) := by
  unfold getNoteName fTone A4
  have h1 : 440 * (2 : ℝ) ^ (-(K : ℝ) / 12) / 440 = (2 : ℝ) ^ (-(K : ℝ) / 12) := by
    field_simp
  rw [h1, Real.logb_rpow (by norm_num) (by norm_num)]
  have h2 : (12 : ℝ) * (-(K : ℝ) / 12) = ((-(K : ℤ) : ℤ) : ℝ) := by
    push_cast
    ring
  simp only [h2, round_intCast]

lemma note29 : getNoteName (fTone 29) = some "E" := by
  rw [getNoteName_fTone]
  decide

lemma note24 : getNoteName (fTone 24) = some "A" := by
  rw [getNoteName_fTone]
  decide

lemma note19 : getNoteName (fTone 19) = some "D" := by
  rw [getNoteName_fTone]
  decide

lemma note14 : getNoteName (fTone 14) = some "G" := by
  rw [getNoteName_fTone]
  decide

lemma note10 : getNoteName (fTone 10) = some "B" := by
  rw [getNoteName_fTone]
  decide

lemma note5 : getNoteName (fTone 5) = some "E" := by
  rw [getNoteName_fTone]
  decide

/-! Characterizations of the variant-1 transition functions. -/

lemma updateTuning_none_eq (s : TunerState) :
    updateTuning s none = { s with isTuned := false, tuningTimeout := none } := rfl

lemma updateTuning_arm (s : TunerState) (f : ℝ) (hf : f ≠ 0) (hit : s.isTuned = false)
    (hcc : inTolNote s.currentStringIndex f) (hs : s.hasSound = true) :
    updateTuning s (some f) =
      { s with isTuned := true, tuningTimeout := some (f, s.currentStringIndex) } := by
  have hcan : |frequencyToCents f (stringAt s.currentStringIndex).frequency| ≤ TUNING_TOLERANCE ∧
      s.hasSound = true ∧ getNoteName f = some (stringAt s.currentStringIndex).note :=
    ⟨hcc.1, hs, hcc.2⟩
  simp only [updateTuning]
  rw [if_neg hf]
  split_ifs with ha hb hc
  · exact absurd hcan hb.2
  · rfl
  · exact absurd ⟨hit, hcan⟩ ha
  · exact absurd ⟨hit, hcan⟩ ha

lemma updateTuning_keep_listening (s : TunerState) (f : ℝ) (hf : f ≠ 0)
    (hit : s.isTuned = false)
    (hcc : ¬(inTolNote s.currentStringIndex f ∧ s.hasSound = true)) :
    updateTuning s (some f) = s := by
  have hcan : ¬(|frequencyToCents f (stringAt s.currentStringIndex).frequency| ≤ TUNING_TOLERANCE ∧
      s.hasSound = true ∧ getNoteName f = some (stringAt s.currentStringIndex).note) := by
    intro h
    exact hcc ⟨⟨h.1, h.2.2⟩, h.2.1⟩
  simp only [updateTuning]
  rw [if_neg hf]
  split_ifs with ha hb hc
  · exact absurd ha.2 hcan
  · exact absurd ha.2 hcan
  · exact absurd (hit.symm.trans hc.1) (by decide)
  · rfl

lemma updateTuning_hold (s : TunerState) (f : ℝ) (hf : f ≠ 0) (hit : s.isTuned = true)
    (hcc : inTolNote s.currentStringIndex f) (hs : s.hasSound = true) :
    updateTuning s (some f) = s := by
  have hcan : |frequencyToCents f (stringAt s.currentStringIndex).frequency| ≤ TUNING_TOLERANCE ∧
      s.hasSound = true ∧ getNoteName f = some (stringAt s.currentStringIndex).note :=
    ⟨hcc.1, hs, hcc.2⟩
  simp only [updateTuning]
  rw [if_neg hf]
  split_ifs with ha hb hc
  · exact absurd (hit.symm.trans ha.1) (by decide)
  · exact absurd (hit.symm.trans ha.1) (by decide)
  · exact absurd hcan hc.2
  · rfl

lemma updateTuning_cancel (s : TunerState) (f : ℝ) (hf : f ≠ 0) (hit : s.isTuned = true)
    (hcc : ¬(inTolNote s.currentStringIndex f ∧ s.hasSound = true)) :
    updateTuning s (some f) =
      { s with isTuned := false, tuningTimeout := none } := by
  have hcan : ¬(|frequencyToCents f (stringAt s.currentStringIndex).frequency| ≤ TUNING_TOLERANCE ∧
      s.hasSound = true ∧ getNoteName f = some (stringAt s.currentStringIndex).note) := by
    intro h
    exact hcc ⟨⟨h.1, h.2.2⟩, h.2.1⟩
  simp only [updateTuning]
  rw [if_neg hf]
  split_ifs with ha hb hc
  · exact absurd (hit.symm.trans ha.1) (by decide)
  · exact absurd (hit.symm.trans ha.1) (by decide)
  · rfl
  · exact absurd ⟨hit, hcan⟩ hc

lemma tick_none_eq (s : TunerState) :
    tick s none = { s with
                    hasSound := false, smoothedFrequency := none,
                    isTuned := false, tuningTimeout := none } := rfl

lemma tick_some_fresh (s : TunerState) (f : ℝ) (hf : f ≠ 0)
    (hsm : s.smoothedFrequency = none) :
    tick s (some f) =
      updateTuning { s with hasSound := true, smoothedFrequency := some f } (some f) := by
  simp only [tick, hsm]
  rw [if_neg hf]

lemma tick_some_smooth (s : TunerState) (f sf : ℝ) (hf : f ≠ 0) (hsf : sf ≠ 0)
    (hsm : s.smoothedFrequency = some sf) :
    tick s (some f) =
      updateTuning
        { s with
          hasSound := true,
          smoothedFrequency := some (sf + (f - sf) * frequencySmoothingFactor) }
        (some (sf + (f - sf) * frequencySmoothingFactor)) := by
  simp only [tick, hsm]
  rw [if_neg hf, if_neg hsf]

lemma moveToNextString_lt (s : TunerState) (h : s.currentStringIndex < 5) :
    moveToNextString s =
      { s with isTuned := false, currentStringIndex := s.currentStringIndex + 1 } := by
  simp only [moveToNextString, STRING_FREQUENCIES_length]
  rw [if_pos (by simpa using h)]

lemma moveToNextString_last (s : TunerState) (h : ¬s.currentStringIndex < 5) :
    moveToNextString s = { s with isTuned := false, allStringsTuned := true } := by
  simp only [moveToNextString, STRING_FREQUENCIES_length]
  rw [if_neg (by simpa using h)]

lemma timerFire_skip (s : TunerState) (cf : ℝ) (ci : ℕ)
    (h : ¬(s.isTuned = true ∧ s.hasSound = true)) :
    timerFire s cf ci = { s with tuningTimeout := none } := by
  simp only [timerFire]
  rw [if_neg h]

lemma timerFire_advance (s : TunerState) (cf : ℝ) (ci : ℕ) (sf : ℝ)
    (hit : s.isTuned = true) (hhs : s.hasSound = true)
    (hsm : s.smoothedFrequency = some sf) (hsf : sf ≠ 0)
    (hcc : inTolNote ci sf) :
    timerFire s cf ci = { moveToNextString s with tuningTimeout := none } := by
  simp only [timerFire, hsm]
  rw [if_pos ⟨hit, hhs⟩, if_neg hsf, if_pos ⟨hcc.1, hcc.2⟩]

lemma timerFire_fallback (s : TunerState) (cf : ℝ) (ci : ℕ) (sf : ℝ)
    (hit : s.isTuned = true) (hhs : s.hasSound = true)
    (hsm : s.smoothedFrequency = some sf) (hsf : sf ≠ 0)
    (hcc : ¬inTolNote ci sf) :
    timerFire s cf ci = { s with isTuned := false, tuningTimeout := none } := by
  simp only [timerFire, hsm]
  rw [if_pos ⟨hit, hhs⟩, if_neg hsf, if_neg (fun h => hcc ⟨h.1, h.2⟩)]

/-! The session invariant. -/

lemma sessionInv_init : SessionInv initState := by
  refine ⟨by norm_num [initState], ?_, ?_, ?_⟩ <;> simp [initState, SessionInv]

lemma sessionInv_updateTuning (s : TunerState) (f : ℝ) (hf0 : f ≠ 0)
    (hhs : s.hasSound = true) (hsmf : s.smoothedFrequency = some f)
    (hband : 50 ≤ f ∧ f ≤ 400)
    (hidx : s.currentStringIndex ≤ 5)
    (hall : s.allStringsTuned = true → s.currentStringIndex = 5)
    (htm : ∀ cf ci, s.tuningTimeout = some (cf, ci) →
      ci = s.currentStringIndex ∧ s.isTuned = true) :
    SessionInv (updateTuning s (some f)) := by
  have hsmband : ∀ sf, s.smoothedFrequency = some sf → 50 ≤ sf ∧ sf ≤ 400 := by
    intro sf h
    rw [hsmf] at h
    cases h
    exact hband
  by_cases hit : s.isTuned = false
  · by_cases hcc : inTolNote s.currentStringIndex f
    · rw [updateTuning_arm s f hf0 hit hcc hhs]
      refine ⟨hidx, hall, hsmband, ?_⟩
      intro cf ci h
      have h2 : some (f, s.currentStringIndex) = some (cf, ci) := h
      cases h2
      exact ⟨rfl, rfl, hhs, f, hsmf⟩
    · rw [updateTuning_keep_listening s f hf0 hit (fun h => hcc h.1)]
      refine ⟨hidx, hall, hsmband, ?_⟩
      intro cf ci h
      exact absurd ((htm cf ci h).2.symm.trans hit) (by decide)
  · have hit2 : s.isTuned = true := by
      cases h : s.isTuned
      · exact absurd h hit
      · rfl
    by_cases hcc : inTolNote s.currentStringIndex f
    · rw [updateTuning_hold s f hf0 hit2 hcc hhs]
      refine ⟨hidx, hall, hsmband, ?_⟩
      intro cf ci h
      exact ⟨(htm cf ci h).1, hit2, hhs, f, hsmf⟩
    · rw [updateTuning_cancel s f hf0 hit2 (fun h => hcc h.1)]
      refine ⟨hidx, hall, hsmband, ?_⟩
      intro cf ci h
      have h2 : (none : Option (ℝ × ℕ)) = some (cf, ci) := h
      cases h2

lemma sessionInv_tick (s : TunerState) (freq : Option ℝ) (hinv : SessionInv s)
    (hband : ∀ f, freq = some f → 50 ≤ f ∧ f ≤ 400) : SessionInv (tick s freq) := by
  obtain ⟨hidx, hall, hsm, htm⟩ := hinv
  match freq with
  | none =>
    rw [tick_none_eq]
    refine ⟨hidx, hall, ?_, ?_⟩
    · intro sf h
      cases h
    · intro cf ci h
      cases h
  | some f =>
    obtain ⟨hf50, hf400⟩ := hband f rfl
    have hf0 : f ≠ 0 := by
      intro h
      rw [h] at hf50
      linarith
    cases hsf : s.smoothedFrequency with
    | none =>
      rw [tick_some_fresh s f hf0 hsf]
      refine sessionInv_updateTuning _ f hf0 rfl rfl ⟨hf50, hf400⟩ hidx hall ?_
      intro cf ci h
      have h2 := htm cf ci h
      exact ⟨h2.1, h2.2.1⟩
    | some sf =>
      obtain ⟨hs50, hs400⟩ := hsm sf hsf
      have hsf0 : sf ≠ 0 := by
        intro h
        rw [h] at hs50
        linarith
      rw [tick_some_smooth s f sf hf0 hsf0 hsf]
      have hsmband : 50 ≤ sf + (f - sf) * frequencySmoothingFactor ∧
          sf + (f - sf) * frequencySmoothingFactor ≤ 400 := by
        unfold frequencySmoothingFactor
        constructor <;> nlinarith
      refine sessionInv_updateTuning _ _ ?_ rfl rfl hsmband hidx hall ?_
      · intro h
        rw [h] at hsmband
        linarith [hsmband.1]
      · intro cf ci h
        have h2 := htm cf ci h
        exact ⟨h2.1, h2.2.1⟩

lemma sessionInv_fire (s : TunerState) (cf : ℝ) (ci : ℕ) (hinv : SessionInv s)
    (harmed : s.tuningTimeout = some (cf, ci)) : SessionInv (timerFire s cf ci) := by
  obtain ⟨hidx, hall, hsm, htm⟩ := hinv
  obtain ⟨hci, hit, hhs, sf, hsf⟩ := htm cf ci harmed
  obtain ⟨hs50, hs400⟩ := hsm sf hsf
  have hsf0 : sf ≠ 0 := by
    intro h
    rw [h] at hs50
    linarith
  by_cases hcc : inTolNote ci sf
  · rw [timerFire_advance s cf ci sf hit hhs hsf hsf0 hcc]
    by_cases hlt : s.currentStringIndex < 5
    · rw [moveToNextString_lt s hlt]
      refine ⟨show s.currentStringIndex + 1 ≤ 5 by omega, ?_, ?_, ?_⟩
      · intro h
        have h2 : s.allStringsTuned = true := h
        exact absurd (hall h2) (by omega)
      · intro sf2 h
        have h2 : s.smoothedFrequency = some sf2 := h
        rw [hsf] at h2
        cases h2
        exact ⟨hs50, hs400⟩
      · intro cf2 ci2 h
        have h2 : (none : Option (ℝ × ℕ)) = some (cf2, ci2) := h
        cases h2
    · rw [moveToNextString_last s hlt]
      refine ⟨show s.currentStringIndex ≤ 5 from hidx, ?_, ?_, ?_⟩
      · intro _
        show s.currentStringIndex = 5
        omega
      · intro sf2 h
        have h2 : s.smoothedFrequency = some sf2 := h
        rw [hsf] at h2
        cases h2
        exact ⟨hs50, hs400⟩
      · intro cf2 ci2 h
        have h2 : (none : Option (ℝ × ℕ)) = some (cf2, ci2) := h
        cases h2
  · rw [timerFire_fallback s cf ci sf hit hhs hsf hsf0 hcc]
    refine ⟨hidx, hall, ?_, ?_⟩
    · intro sf2 h
      have h2 : s.smoothedFrequency = some sf2 := h
      rw [hsf] at h2
      cases h2
      exact ⟨hs50, hs400⟩
    · intro cf2 ci2 h
      have h2 : (none : Option (ℝ × ℕ)) = some (cf2, ci2) := h
      cases h2

lemma sessionInv_reset (s : TunerState) : SessionInv (resetTuning s) := by
  refine ⟨by norm_num [resetTuning], ?_, ?_, ?_⟩ <;> simp [resetTuning, SessionInv]

lemma reachable_inv {s : TunerState} (h : Reachable s) : SessionInv s := by
  induction h with
  | init => exact sessionInv_init
  | step hs hst ih =>
    cases hst with
    | tickEv freq hband => exact sessionInv_tick _ freq ih hband
    | fireEv cf ci harmed => exact sessionInv_fire _ cf ci ih harmed
    | resetEv => exact sessionInv_reset _

/-! Evaluating the concrete six-string trace. -/

lemma fTone_ne (K : ℕ) : fTone K ≠ 0 := (fTone_pos K).ne'

lemma inTol0 : inTolNote 0 (fTone 29) := ⟨cents29, by rw [note29]; rfl⟩

lemma inTol1 : inTolNote 1 (fTone 24) := ⟨cents24, by rw [note24]; rfl⟩

lemma inTol2 : inTolNote 2 (fTone 19) := ⟨cents19, by rw [note19]; rfl⟩

lemma inTol3 : inTolNote 3 (fTone 14) := ⟨cents14, by rw [note14]; rfl⟩

lemma inTol4 : inTolNote 4 (fTone 10) := ⟨cents10, by rw [note10]; rfl⟩

lemma inTol5 : inTolNote 5 (fTone 5) := ⟨cents5, by rw [note5]; rfl⟩

lemma bandTone (K : ℕ) (hb : 50 ≤ fTone K ∧ fTone K ≤ 400) :
    ∀ f, some (fTone K) = some f → 50 ≤ f ∧ f ≤ 400 := by
  intro f h
  cases h
  exact hb

lemma tick_arm_flat (i : ℕ) (al hs0 : Bool) (f : ℝ) (hf : f ≠ 0)
    (hcc : inTolNote i f) :
    tick ⟨i, false, al, none, hs0, none⟩ (some f) =
      ⟨i, true, al, some f, true, some (f, i)⟩ := by
  have h1 := tick_some_fresh ⟨i, false, al, none, hs0, none⟩ f hf rfl
  rw [h1]
  show updateTuning ⟨i, false, al, some f, true, none⟩ (some f) = _
  have h2 := updateTuning_arm ⟨i, false, al, some f, true, none⟩ f hf rfl hcc rfl
  rw [h2]

lemma fire_advance_flat (i : ℕ) (al : Bool) (t0 : Option (ℝ × ℕ)) (cf f : ℝ)
    (hf : f ≠ 0) (hcc : inTolNote i f) (hlt : i < 5) :
    timerFire ⟨i, true, al, some f, true, t0⟩ cf i =
      ⟨i + 1, false, al, some f, true, none⟩ := by
  have h1 := timerFire_advance ⟨i, true, al, some f, true, t0⟩ cf i f rfl rfl rfl hf hcc
  rw [h1]
  have h2 := moveToNextString_lt ⟨i, true, al, some f, true, t0⟩ (show i < 5 from hlt)
  rw [h2]

lemma fire_last_flat (al : Bool) (t0 : Option (ℝ × ℕ)) (cf f : ℝ)
    (hf : f ≠ 0) (hcc : inTolNote 5 f) :
    timerFire ⟨5, true, al, some f, true, t0⟩ cf 5 =
      ⟨5, false, true, some f, true, none⟩ := by
  have h1 := timerFire_advance ⟨5, true, al, some f, true, t0⟩ cf 5 f rfl rfl rfl hf hcc
  rw [h1]
  have h2 := moveToNextString_last ⟨5, true, al, some f, true, t0⟩
    (show ¬(5 : ℕ) < 5 by decide)
  rw [h2]

lemma tick_none_flat (i : ℕ) (it al hs0 : Bool) (sm : Option ℝ) (t0 : Option (ℝ × ℕ)) :
    tick ⟨i, it, al, sm, hs0, t0⟩ none = ⟨i, false, al, none, false, none⟩ := by
  rw [tick_none_eq]

lemma ws1_eq : ws1 = ⟨0, true, false, some (fTone 29), true, some (fTone 29, 0)⟩ :=
  tick_arm_flat 0 false false (fTone 29) (fTone_ne 29) inTol0

lemma ws2_eq : ws2 = ⟨1, false, false, some (fTone 29), true, none⟩ := by
  show timerFire ws1 (fTone 29) 0 = _
  rw [ws1_eq]
  exact fire_advance_flat 0 false _ (fTone 29) (fTone 29) (fTone_ne 29) inTol0 (by norm_num)

lemma ws3_eq : ws3 = ⟨1, false, false, none, false, none⟩ := by
  show tick ws2 none = _
  rw [ws2_eq]
  exact tick_none_flat 1 false false true (some (fTone 29)) none

lemma ws4_eq : ws4 = ⟨1, true, false, some (fTone 24), true, some (fTone 24, 1)⟩ := by
  show tick ws3 (some (fTone 24)) = _
  rw [ws3_eq]
  exact tick_arm_flat 1 false false (fTone 24) (fTone_ne 24) inTol1

lemma ws5_eq : ws5 = ⟨2, false, false, some (fTone 24), true, none⟩ := by
  show timerFire ws4 (fTone 24) 1 = _
  rw [ws4_eq]
  exact fire_advance_flat 1 false _ (fTone 24) (fTone 24) (fTone_ne 24) inTol1 (by norm_num)

lemma ws6_eq : ws6 = ⟨2, false, false, none, false, none⟩ := by
  show tick ws5 none = _
  rw [ws5_eq]
  exact tick_none_flat 2 false false true (some (fTone 24)) none

lemma ws7_eq : ws7 = ⟨2, true, false, some (fTone 19), true, some (fTone 19, 2)⟩ := by
  show tick ws6 (some (fTone 19)) = _
  rw [ws6_eq]
  exact tick_arm_flat 2 false false (fTone 19) (fTone_ne 19) inTol2

lemma ws8_eq : ws8 = ⟨3, false, false, some (fTone 19), true, none⟩ := by
  show timerFire ws7 (fTone 19) 2 = _
  rw [ws7_eq]
  exact fire_advance_flat 2 false _ (fTone 19) (fTone 19) (fTone_ne 19) inTol2 (by norm_num)

lemma ws9_eq : ws9 = ⟨3, false, false, none, false, none⟩ := by
  show tick ws8 none = _
  rw [ws8_eq]
  exact tick_none_flat 3 false false true (some (fTone 19)) none

lemma ws10_eq : ws10 = ⟨3, true, false, some (fTone 14), true, some (fTone 14, 3)⟩ := by
  show tick ws9 (some (fTone 14)) = _
  rw [ws9_eq]
  exact tick_arm_flat 3 false false (fTone 14) (fTone_ne 14) inTol3

lemma ws11_eq : ws11 = ⟨4, false, false, some (fTone 14), true, none⟩ := by
  show timerFire ws10 (fTone 14) 3 = _
  rw [ws10_eq]
  exact fire_advance_flat 3 false _ (fTone 14) (fTone 14) (fTone_ne 14) inTol3 (by norm_num)

lemma ws12_eq : ws12 = ⟨4, false, false, none, false, none⟩ := by
  show tick ws11 none = _
  rw [ws11_eq]
  exact tick_none_flat 4 false false true (some (fTone 14)) none

lemma ws13_eq : ws13 = ⟨4, true, false, some (fTone 10), true, some (fTone 10, 4)⟩ := by
  show tick ws12 (some (fTone 10)) = _
  rw [ws12_eq]
  exact tick_arm_flat 4 false false (fTone 10) (fTone_ne 10) inTol4

lemma ws14_eq : ws14 = ⟨5, false, false, some (fTone 10), true, none⟩ := by
  show timerFire ws13 (fTone 10) 4 = _
  rw [ws13_eq]
  exact fire_advance_flat 4 false _ (fTone 10) (fTone 10) (fTone_ne 10) inTol4 (by norm_num)

lemma ws15_eq : ws15 = ⟨5, false, false, none, false, none⟩ := by
  show tick ws14 none = _
  rw [ws14_eq]
  exact tick_none_flat 5 false false true (some (fTone 10)) none

lemma ws16_eq : ws16 = ⟨5, true, false, some (fTone 5), true, some (fTone 5, 5)⟩ := by
  show tick ws15 (some (fTone 5)) = _
  rw [ws15_eq]
  exact tick_arm_flat 5 false false (fTone 5) (fTone_ne 5) inTol5

lemma ws17_eq : ws17 = ⟨5, false, true, some (fTone 5), true, none⟩ := by
  show timerFire ws16 (fTone 5) 5 = _
  rw [ws16_eq]
  exact fire_last_flat false _ (fTone 5) (fTone 5) (fTone_ne 5) inTol5

lemma reach_ws1 : Reachable ws1 :=
  Reachable.step Reachable.init (Step.tickEv _ _ (bandTone 29 band29))

lemma reach_ws2 : Reachable ws2 :=
  Reachable.step reach_ws1 (Step.fireEv _ _ _ (by rw [ws1_eq]))

lemma reach_ws3 : Reachable ws3 :=
  Reachable.step reach_ws2 (Step.tickEv _ none (by intro f h; cases h))

lemma reach_ws4 : Reachable ws4 :=
  Reachable.step reach_ws3 (Step.tickEv _ _ (bandTone 24 band24))

lemma reach_ws5 : Reachable ws5 :=
  Reachable.step reach_ws4 (Step.fireEv _ _ _ (by rw [ws4_eq]))

lemma reach_ws6 : Reachable ws6 :=
  Reachable.step reach_ws5 (Step.tickEv _ none (by intro f h; cases h))

lemma reach_ws7 : Reachable ws7 :=
  Reachable.step reach_ws6 (Step.tickEv _ _ (bandTone 19 band19))

lemma reach_ws8 : Reachable ws8 :=
  Reachable.step reach_ws7 (Step.fireEv _ _ _ (by rw [ws7_eq]))

lemma reach_ws9 : Reachable ws9 :=
  Reachable.step reach_ws8 (Step.tickEv _ none (by intro f h; cases h))

lemma reach_ws10 : Reachable ws10 :=
  Reachable.step reach_ws9 (Step.tickEv _ _ (bandTone 14 band14))

lemma reach_ws11 : Reachable ws11 :=
  Reachable.step reach_ws10 (Step.fireEv _ _ _ (by rw [ws10_eq]))

lemma reach_ws12 : Reachable ws12 :=
  Reachable.step reach_ws11 (Step.tickEv _ none (by intro f h; cases h))

lemma reach_ws13 : Reachable ws13 :=
  Reachable.step reach_ws12 (Step.tickEv _ _ (bandTone 10 band10))

lemma reach_ws14 : Reachable ws14 :=
  Reachable.step reach_ws13 (Step.fireEv _ _ _ (by rw [ws13_eq]))

lemma reach_ws15 : Reachable ws15 :=
  Reachable.step reach_ws14 (Step.tickEv _ none (by intro f h; cases h))

lemma reach_ws16 : Reachable ws16 :=
  Reachable.step reach_ws15 (Step.tickEv _ _ (bandTone 5 band5))

lemma reach_ws17 : Reachable ws17 :=
  Reachable.step reach_ws16 (Step.fireEv _ _ _ (by rw [ws16_eq]))

/-! The pitch estimator: band property and behavior on malformed input. -/

lemma corrStep_fst (buf : List ℝ) (acc : ℤ × ℝ) (lag : ℕ) :
    (corrStep buf acc lag).1 = acc.1 ∨ (corrStep buf acc lag).1 = (lag : ℤ) := by
  simp only [corrStep]
  split_ifs <;> first | exact Or.inl rfl | exact Or.inr rfl

lemma foldl_fst_cases (step : ℤ × ℝ → ℕ → ℤ × ℝ)
    (hstep : ∀ acc l, (step acc l).1 = acc.1 ∨ (step acc l).1 = (l : ℤ))
    (L : List ℕ) (acc : ℤ × ℝ) :
    (L.foldl step acc).1 = acc.1 ∨ ∃ l ∈ L, (L.foldl step acc).1 = (l : ℤ) := by
  induction L generalizing acc with
  | nil => exact Or.inl rfl
  | cons x xs ih =>
    rw [List.foldl_cons]
    rcases ih (step acc x) with h | ⟨l, hl, h⟩
    · rcases hstep acc x with h2 | h2
      · exact Or.inl (h.trans h2)
      · exact Or.inr ⟨x, List.mem_cons_self x xs, h.trans h2⟩
    · exact Or.inr ⟨l, List.mem_cons_of_mem x hl, h⟩

lemma detectPitch_band (buf : List ℝ) (sr : ℝ) :
    detectPitch buf sr = none ∨
      ∃ f, detectPitch buf sr = some f ∧ 50 ≤ f ∧ f ≤ 400 := by
  simp only [detectPitch]
  split_ifs with h1 h2 h3
  · exact Or.inl rfl
  · exact Or.inl rfl
  · exact Or.inl rfl
  · push_neg at h3
    exact Or.inr ⟨_, rfl, h3.1, h3.2⟩

lemma detectPitch_empty (sr : ℝ) : detectPitch [] sr = none := by
  simp only [detectPitch, List.foldl_nil, List.length_nil, Nat.cast_zero, div_zero,
    Real.sqrt_zero]
  rw [if_pos (by norm_num)]

lemma detectPitch_nonpos_sr (buf : List ℝ) (sr : ℝ) (hsr : sr ≤ 0) :
    detectPitch buf sr = none := by
  simp only [detectPitch]
  split_ifs with h1 h2 h3
  · rfl
  · rfl
  · rfl
  · exfalso
    push_neg at h2 h3
    rcases foldl_fst_cases (corrStep buf) (corrStep_fst buf)
        (List.range' 8 ((buf.length + 1) / 2 - 8)) ((-1 : ℤ), (0 : ℝ)) with h | ⟨l, hl, h⟩
    · exact h2.1 h
    · have hl8 : 8 ≤ l := (List.mem_range'_1.mp hl).1
      have hlpos : (0 : ℝ) < (l : ℝ) := by
        have : (0 : ℕ) < l := by omega
        exact_mod_cast this
      have hdiv : sr / (((List.range' 8 ((buf.length + 1) / 2 - 8)).foldl
          (corrStep buf) ((-1 : ℤ), (0 : ℝ))).1 : ℝ) ≤ 0 := by
        rw [h]
        push_cast
        exact div_nonpos_iff.mpr (Or.inr ⟨hsr, hlpos.le⟩)
      linarith [h3.1]

lemma getPitchAccept_band (p c : ℝ) :
    getPitchAccept p c = none ∨
      ∃ f, getPitchAccept p c = some f ∧ 50 ≤ f ∧ f ≤ 400 := by
  simp only [getPitchAccept]
  split_ifs with h
  · exact Or.inr ⟨p, rfl, h.2.2.1, h.2.2.2⟩
  · exact Or.inl rfl

lemma getPitchAccept_out (p c : ℝ) (h : p < 50 ∨ 400 < p) : getPitchAccept p c = none := by
  simp only [getPitchAccept]
  rw [if_neg]
  rintro ⟨-, -, h50, h400⟩
  rcases h with h | h <;> linarith

/-! The adaptive smoother of `part_000`. -/

lemma abs_110_sub_100 : |(110 : ℝ) - 100| = 10 := by
  rw [show (110 : ℝ) - 100 = 10 by norm_num]
  exact abs_of_nonneg (by norm_num)

lemma abs_101_sub_100 : |(101 : ℝ) - 100| = 1 := by
  rw [show (101 : ℝ) - 100 = 1 by norm_num]
  exact abs_of_nonneg (by norm_num)

lemma smoothUpdateP0_jump (s r : ℝ) (h : s * 0.1 ≤ |r - s|) :
    smoothUpdateP0 (some s) r = s + (r - s) * 0.5 := by
  simp only [smoothUpdateP0]
  rw [if_neg (not_lt.mpr h)]

lemma smoothUpdateP0_small (s r : ℝ) (h : |r - s| < s * 0.1) :
    smoothUpdateP0 (some s) r = s + (r - s) * frequencySmoothingFactorP0 := by
  simp only [smoothUpdateP0]
  rw [if_pos h]

/-! The guarded cents converter and its caller (variant 2). -/

lemma frequencyToCents2_pos (d t : ℝ) (hd : 0 < d) :
    frequencyToCents2 d t = 1200 * Real.logb 2 (d / t) := by
  simp only [frequencyToCents2]
  rw [if_neg (not_le.mpr hd)]

lemma frequencyToCents2_nonpos (d t : ℝ) (hd : d ≤ 0) : frequencyToCents2 d t = 0 := by
  simp only [frequencyToCents2]
  rw [if_pos hd]

lemma updateTuning2_nonpos (s : Tuner2State) (f : ℝ) (hf : f ≤ 0) :
    (updateTuning2 s (some f)).isTuned = false ∧
    (updateTuning2 s (some f)).tuningTimeout = none := by
  simp only [updateTuning2]
  rw [if_pos hf]
  exact ⟨rfl, rfl⟩

lemma updateTuning2_none (s : Tuner2State) :
    (updateTuning2 s none).isTuned = false ∧
    (updateTuning2 s none).tuningTimeout = none := ⟨rfl, rfl⟩

/-! The unguarded cents converter (variant 1). -/

lemma frequencyToCents_eq_zero {f t : ℝ} (hf : 0 < f) (ht : 0 < t)
    (h : frequencyToCents f t = 0) : f = t := by
  unfold frequencyToCents at h
  have h2 : Real.logb 2 (f / t) = 0 := by linarith
  have hl2 : Real.log 2 ≠ 0 := (Real.log_pos one_lt_two).ne'
  have h3 : Real.log (f / t) = 0 := by
    unfold Real.logb at h2
    rcases div_eq_zero_iff.mp h2 with h4 | h4
    · exact h4
    · exact absurd h4 hl2
  have hpos : 0 < f / t := div_pos hf ht
  rcases Real.log_eq_zero.mp h3 with h4 | h4 | h4
  · exact absurd h4 hpos.ne'
  · exact (div_eq_one_iff_eq ht.ne').mp h4
  · exfalso
    rw [h4] at hpos
    norm_num at hpos

lemma frequencyToCents_self : frequencyToCents 440 440 = 0 := by
  unfold frequencyToCents
  rw [div_self (by norm_num : (440 : ℝ) ≠ 0), Real.logb_one, mul_zero]

/-! The two note-naming implementations. -/

lemma getNoteName_of_nonneg (f : ℝ)
    (h : 0 ≤ round (12 * Real.logb 2 (f / A4)) + 9 + 12 * 4) :
    getNoteName f =
      NOTE_NAMES[((round (12 * Real.logb 2 (f / A4)) + 9 + 12 * 4) % 12).toNat]? := by
  simp only [getNoteName, jsMod]
  rw [if_pos h, if_neg (not_lt.mpr (Int.emod_nonneg _ (by norm_num)))]

lemma frequencyToNote_of_nonneg (f : ℝ) (hf : ¬f ≤ 0)
    (h : 0 ≤ round (12 * Real.logb 2 (f / A4_FREQUENCY)) + 57) :
    frequencyToNote f =
      some ⟨NOTE_NAMES[((round (12 * Real.logb 2 (f / A4_FREQUENCY)) + 57) % 12).toNat]?,
        Int.fdiv (round (12 * Real.logb 2 (f / A4_FREQUENCY)) + 57) 12, f⟩ := by
  simp only [frequencyToNote, jsMod]
  rw [if_neg hf, if_pos h, if_neg (not_lt.mpr (Int.emod_nonneg _ (by norm_num)))]

/-- In the estimator band the rounded semitone count is at least -48, so the
table index of both note-naming implementations is the same non-negative
residue. -/
lemma round_semitones_ge (f : ℝ) (h50 : 50 ≤ f) :
    (-48 : ℤ) ≤ round (12 * Real.logb 2 (f / A4)) := by
  have hf0 : (0 : ℝ) < f := by linarith
  have hxlow : (-48 : ℝ) ≤ 12 * Real.logb 2 (f / A4) := by
    have h1 : Real.logb 2 (((2 : ℝ) ^ (4 : ℕ))⁻¹) ≤ Real.logb 2 (f / A4) := by
      apply (Real.logb_le_logb one_lt_two (by positivity)
        (div_pos hf0 (by norm_num [A4]))).mpr
      rw [show ((2 : ℝ) ^ (4 : ℕ))⁻¹ = 1 / 16 by norm_num,
        div_le_div_iff₀ (by norm_num) (by norm_num [A4] : (0 : ℝ) < A4)]
      unfold A4
      linarith
    rw [Real.logb_inv, Real.logb_pow, Real.logb_self_eq_one one_lt_two, mul_one] at h1
    linarith
  have h2 : (-48 : ℤ) ≤ ⌊12 * Real.logb 2 (f / A4)⌋ := Int.le_floor.mpr (by exact_mod_cast hxlow)
  have h3 : ⌊12 * Real.logb 2 (f / A4)⌋ ≤ round (12 * Real.logb 2 (f / A4)) := by
    rw [round_eq]
    exact Int.floor_mono (by linarith)
  omega

lemma noteNames_agree (f : ℝ) (h50 : 50 ≤ f) :
    ∃ n : String, n ∈ NOTE_NAMES ∧ getNoteName f = some n ∧
      ∃ info : NoteInfo, frequencyToNote f = some info ∧ info.name = some n := by
  have hf0 : (0 : ℝ) < f := by linarith
  have hr := round_semitones_ge f h50
  have ha : 0 ≤ round (12 * Real.logb 2 (f / A4)) + 9 + 12 * 4 := by omega
  have hAA : round (12 * Real.logb 2 (f / A4_FREQUENCY)) =
      round (12 * Real.logb 2 (f / A4)) := rfl
  have h57 : round (12 * Real.logb 2 (f / A4)) + 57 =
      round (12 * Real.logb 2 (f / A4)) + 9 + 12 * 4 := by ring
  have hmod0 : 0 ≤ (round (12 * Real.logb 2 (f / A4)) + 9 + 12 * 4) % 12 :=
    Int.emod_nonneg _ (by norm_num)
  have hmodlt : (round (12 * Real.logb 2 (f / A4)) + 9 + 12 * 4) % 12 < 12 :=
    Int.emod_lt_of_pos _ (by norm_num)
  have hidx : ((round (12 * Real.logb 2 (f / A4)) + 9 + 12 * 4) % 12).toNat <
      NOTE_NAMES.length := by
    show _ < 12
    omega
  refine ⟨NOTE_NAMES.get ⟨_, hidx⟩, List.get_mem _ _ _, ?_, ?_⟩
  · rw [getNoteName_of_nonneg f ha]
    exact List.getElem?_eq_getElem hidx
  · refine ⟨⟨NOTE_NAMES[((round (12 * Real.logb 2 (f / A4_FREQUENCY)) + 57) % 12).toNat]?,
      Int.fdiv (round (12 * Real.logb 2 (f / A4_FREQUENCY)) + 57) 12, f⟩, ?_, ?_⟩
    · exact frequencyToNote_of_nonneg f (not_le.mpr hf0) (by rw [hAA]; omega)
    · show NOTE_NAMES[((round (12 * Real.logb 2 (f / A4_FREQUENCY)) + 57) % 12).toNat]? =
        some (NOTE_NAMES.get ⟨_, hidx⟩)
      rw [hAA, h57]
      exact List.getElem?_eq_getElem hidx

/-! Frame lemmas: which fields each transition can touch. -/

lemma updateTuning_idx_all (s : TunerState) (freq : Option ℝ) :
    (updateTuning s freq).currentStringIndex = s.currentStringIndex ∧
    (updateTuning s freq).allStringsTuned = s.allStringsTuned := by
  match freq with
  | none => exact ⟨rfl, rfl⟩
  | some f =>
    simp only [updateTuning]
    split_ifs <;> exact ⟨rfl, rfl⟩

lemma tick_zero_eq (s : TunerState) :
    tick s (some 0) = { s with
      hasSound := false, smoothedFrequency := none,
      isTuned := false, tuningTimeout := none } := by
  simp only [tick]
  rw [if_pos trivial]
  rfl

lemma tick_idx_all (s : TunerState) (freq : Option ℝ) :
    (tick s freq).currentStringIndex = s.currentStringIndex ∧
    (tick s freq).allStringsTuned = s.allStringsTuned := by
  match freq with
  | none => exact ⟨rfl, rfl⟩
  | some f =>
    by_cases hf : f = 0
    · subst hf
      rw [tick_zero_eq]
      exact ⟨rfl, rfl⟩
    · cases hsm : s.smoothedFrequency with
      | none =>
        rw [tick_some_fresh s f hf hsm]
        exact updateTuning_idx_all _ _
      | some sf =>
        by_cases hsf : sf = 0
        · subst hsf
          simp only [tick, hsm]
          rw [if_neg hf, if_pos trivial]
          exact updateTuning_idx_all _ _
        · rw [tick_some_smooth s f sf hf hsf hsm]
          exact updateTuning_idx_all _ _

lemma timerFire_timer (s : TunerState) (cf : ℝ) (ci : ℕ) :
    (timerFire s cf ci).tuningTimeout = none := rfl

lemma moveToNextString_smoothed (s : TunerState) :
    (moveToNextString s).smoothedFrequency = s.smoothedFrequency := by
  simp only [moveToNextString]
  split_ifs <;> rfl

lemma timerFire_smoothed (s : TunerState) (cf : ℝ) (ci : ℕ) :
    (timerFire s cf ci).smoothedFrequency = s.smoothedFrequency := by
  simp only [timerFire]
  split_ifs
  · exact moveToNextString_smoothed s
  · rfl
  · rfl

lemma timerFire_at5 (s : TunerState) (cf : ℝ) (ci : ℕ) (h5 : s.currentStringIndex = 5)
    (hall : s.allStringsTuned = true) :
    (timerFire s cf ci).currentStringIndex = s.currentStringIndex ∧
    (timerFire s cf ci).allStringsTuned = true := by
  simp only [timerFire]
  split_ifs
  · rw [moveToNextString_last s (by omega)]
    exact ⟨rfl, rfl⟩
  · exact ⟨rfl, hall⟩
  · exact ⟨rfl, hall⟩

/-! The claims. -/

/-- Claim C1: when the confirmation timer fires while the machine is pending
confirmation for target index `i` (timer armed), the in-tolerance-and-correct-
note condition is re-evaluated against the latest smoothed frequency (the
captured frequency is irrelevant: firing with any captured value gives the
same result); the machine advances - incrementing the index, or setting
`allStringsTuned` when `i` is the last of the six - exactly when the
re-evaluated condition holds, and otherwise drops back to listening at index
`i` without advancing. -/
theorem guitar_c1 (s : TunerState) (hs : Reachable s) (cf : ℝ) (i : ℕ)
    (ht : s.tuningTimeout = some (cf, i)) :
    i = s.currentStringIndex ∧ i ≤ 5 ∧
    ∃ sf : ℝ, s.smoothedFrequency = some sf ∧
      (∀ cf2 : ℝ, timerFire s cf2 i = timerFire s cf i) ∧
      (inTolNote i sf →
        (timerFire s cf i).isTuned = false ∧
        (timerFire s cf i).tuningTimeout = none ∧
        (i < 5 → (timerFire s cf i).currentStringIndex = i + 1 ∧
          (timerFire s cf i).allStringsTuned = s.allStringsTuned) ∧
        (i = 5 → (timerFire s cf i).currentStringIndex = 5 ∧
          (timerFire s cf i).allStringsTuned = true)) ∧
      (¬inTolNote i sf →
        timerFire s cf i = { s with isTuned := false, tuningTimeout := none }) := by
  have hinv := reachable_inv hs
  obtain ⟨hci, hit, hhs, sf, hsf⟩ := hinv.2.2.2 cf i ht
  subst hci
  obtain ⟨hs50, hs400⟩ := hinv.2.2.1 sf hsf
  have hsf0 : sf ≠ 0 := by
    intro h
    rw [h] at hs50
    linarith
  refine ⟨rfl, hinv.1, sf, hsf, ?_, ?_, ?_⟩
  · intro cf2
    by_cases hcc : inTolNote s.currentStringIndex sf
    · rw [timerFire_advance s cf2 _ sf hit hhs hsf hsf0 hcc,
        timerFire_advance s cf _ sf hit hhs hsf hsf0 hcc]
    · rw [timerFire_fallback s cf2 _ sf hit hhs hsf hsf0 hcc,
        timerFire_fallback s cf _ sf hit hhs hsf hsf0 hcc]
  · intro hcc
    rw [timerFire_advance s cf _ sf hit hhs hsf hsf0 hcc]
    by_cases hlt : s.currentStringIndex < 5
    · rw [moveToNextString_lt s hlt]
      exact ⟨rfl, rfl, fun _ => ⟨rfl, rfl⟩, fun h5 => absurd h5 (by omega)⟩
    · rw [moveToNextString_last s hlt]
      have h5 : s.currentStringIndex = 5 := by
        have := hinv.1
        omega
      exact ⟨rfl, rfl, fun hl => absurd hl hlt, fun _ => ⟨h5, rfl⟩⟩
  · intro hcc
    rw [timerFire_fallback s cf _ sf hit hhs hsf hsf0 hcc]

/-- Witness for C1: the reachable state reached by one in-tolerance low-E tick
has an armed timer at index 0; firing it advances to index 1 and clears the
timer. -/
theorem guitar_c1_witness :
    ws1.tuningTimeout = some (fTone 29, 0) ∧
    (timerFire ws1 (fTone 29) 0).currentStringIndex = 1 ∧
    (timerFire ws1 (fTone 29) 0).tuningTimeout = none := by
  have harm : ws1.tuningTimeout = some (fTone 29, 0) := by rw [ws1_eq]
  obtain ⟨hidx, hle, sf, hsf, hcap, hadv, hfall⟩ :=
    guitar_c1 ws1 reach_ws1 (fTone 29) 0 harm
  have hsf2 : sf = fTone 29 := by
    rw [ws1_eq] at hsf
    exact (Option.some_inj.mp hsf).symm
  have hcc : inTolNote 0 sf := by
    rw [hsf2]
    exact inTol0
  obtain ⟨ht1, ht2, hlt, -⟩ := hadv hcc
  exact ⟨harm, (hlt (by norm_num)).1, ht2⟩

/-- Counterexample for C2: a confirmation advance (string switch from index 0
to index 1) whose transition clears the pending deadline but retains the
previous string's smoothed frequency instead of clearing it. -/
theorem guitar_c2_counterexample :
    ws1.tuningTimeout = some (fTone 29, 0) ∧
    (timerFire ws1 (fTone 29) 0).currentStringIndex = 1 ∧
    (timerFire ws1 (fTone 29) 0).smoothedFrequency = some (fTone 29) ∧
    (timerFire ws1 (fTone 29) 0).smoothedFrequency ≠ none := by
  have h2 : timerFire ws1 (fTone 29) 0 = ⟨1, false, false, some (fTone 29), true, none⟩ :=
    ws2_eq
  refine ⟨by rw [ws1_eq], by rw [h2], by rw [h2], by rw [h2]; exact fun h => by cases h⟩

/-- Claim C2 (amended): an explicit reset atomically clears the smoothed
frequency, the pending confirmation deadline and the index; a firing
confirmation timer clears the pending deadline in the same transition but
retains the smoothed frequency, which carries over to the next target
string. -/
theorem guitar_c2 :
    (∀ s : TunerState, (resetTuning s).smoothedFrequency = none ∧
      (resetTuning s).tuningTimeout = none ∧ (resetTuning s).currentStringIndex = 0) ∧
    (∀ (s : TunerState) (cf : ℝ) (ci : ℕ), (timerFire s cf ci).tuningTimeout = none) ∧
    (∀ (s : TunerState) (cf : ℝ) (ci : ℕ),
      (timerFire s cf ci).smoothedFrequency = s.smoothedFrequency) :=
  ⟨fun _ => ⟨rfl, rfl, rfl⟩, timerFire_timer, timerFire_smoothed⟩

/-- Claim C3: the pitch estimator returns no pitch or a frequency inside the
guitar band 50..400 Hz; this holds for the variant-1 autocorrelation
`detectPitch` and for the variant-2 `getPitch` acceptance filter, which
moreover rejects every out-of-band candidate. -/
theorem guitar_c3 :
    (∀ (buf : List ℝ) (sr : ℝ), detectPitch buf sr = none ∨
      ∃ f, detectPitch buf sr = some f ∧ 50 ≤ f ∧ f ≤ 400) ∧
    (∀ p c : ℝ, getPitchAccept p c = none ∨
      ∃ f, getPitchAccept p c = some f ∧ 50 ≤ f ∧ f ≤ 400) ∧
    (∀ p c : ℝ, p < 50 ∨ 400 < p → getPitchAccept p c = none) :=
  ⟨detectPitch_band, getPitchAccept_band, getPitchAccept_out⟩

/-- Witness for C3: the out-of-band candidate 500 Hz is rejected. -/
theorem guitar_c3_witness : getPitchAccept 500 1 = none :=
  guitar_c3.2.2 500 1 (Or.inr (by norm_num))

/-- Claim C4: once `allStringsTuned` holds (after the sixth confirmation),
every tick and every timer expiry leave the target index unchanged and the
flag set; only an explicit reset clears the flag (returning to index 0). -/
theorem guitar_c4 (s : TunerState) (hs : Reachable s)
    (hall : s.allStringsTuned = true) :
    (∀ freq : Option ℝ,
      (tick s freq).currentStringIndex = s.currentStringIndex ∧
      (tick s freq).allStringsTuned = true) ∧
    (∀ (cf : ℝ) (ci : ℕ),
      (timerFire s cf ci).currentStringIndex = s.currentStringIndex ∧
      (timerFire s cf ci).allStringsTuned = true) ∧
    ((resetTuning s).allStringsTuned = false ∧
      (resetTuning s).currentStringIndex = 0) := by
  have h5 : s.currentStringIndex = 5 := (reachable_inv hs).2.1 hall
  refine ⟨fun freq => ?_, fun cf ci => timerFire_at5 s cf ci h5 hall, rfl, rfl⟩
  have h := tick_idx_all s freq
  exact ⟨h.1, h.2.trans hall⟩

/-- Witness for C4: the state after the full six-string trace has the flag
set; a silent tick and a stray timer expiry leave index and flag unchanged,
and reset clears them. -/
theorem guitar_c4_witness :
    ws17.allStringsTuned = true ∧
    (tick ws17 none).currentStringIndex = ws17.currentStringIndex ∧
    (tick ws17 none).allStringsTuned = true ∧
    (timerFire ws17 0 0).currentStringIndex = ws17.currentStringIndex ∧
    (timerFire ws17 0 0).allStringsTuned = true ∧
    (resetTuning ws17).allStringsTuned = false ∧
    (resetTuning ws17).currentStringIndex = 0 := by
  have hall : ws17.allStringsTuned = true := by rw [ws17_eq]
  obtain ⟨h1, h2, h3⟩ := guitar_c4 ws17 reach_ws17 hall
  exact ⟨hall, (h1 none).1, (h1 none).2, (h2 0 0).1, (h2 0 0).2, h3.1, h3.2⟩

/-- Counterexample for C5: at the exact boundary `|raw - smoothed| = smoothed
* 0.1` (smoothed 100, raw 110) the `part_000` smoother takes the jump branch
(factor 0.5, result 105) while the claimed law takes the fixed-factor branch
(result 103). -/
theorem guitar_c5_counterexample :
    smoothUpdateP0 (some 100) 110 = 105 ∧ smoothSpecC5 100 110 = 103 ∧
    smoothUpdateP0 (some 100) 110 ≠ smoothSpecC5 100 110 := by
  have h1 : smoothUpdateP0 (some 100) 110 = 105 := by
    rw [smoothUpdateP0_jump 100 110 (by rw [abs_110_sub_100]; norm_num)]
    norm_num
  have h2 : smoothSpecC5 100 110 = 103 := by
    simp only [smoothSpecC5]
    rw [if_neg (by rw [abs_110_sub_100]; norm_num)]
    unfold frequencySmoothingFactorP0
    norm_num
  refine ⟨h1, h2, ?_⟩
  rw [h1, h2]
  norm_num

/-- Claim C5 (amended): with an existing smoothed value `s` and raw reading
`r`, the `part_000` smoother uses the larger factor 0.5 when
`|r - s| >= s * 0.1` (boundary included) and the fixed factor 0.3 when
`|r - s| < s * 0.1`. -/
theorem guitar_c5 (s r : ℝ) :
    (s * 0.1 ≤ |r - s| → smoothUpdateP0 (some s) r = s + (r - s) * 0.5) ∧
    (|r - s| < s * 0.1 →
      smoothUpdateP0 (some s) r = s + (r - s) * frequencySmoothingFactorP0) :=
  ⟨smoothUpdateP0_jump s r, smoothUpdateP0_small s r⟩

/-- Witness for C5: a 10 percent jump takes the 0.5 branch, a 1 percent jump
the 0.3 branch. -/
theorem guitar_c5_witness :
    smoothUpdateP0 (some 100) 110 = 100 + (110 - 100) * 0.5 ∧
    smoothUpdateP0 (some 100) 101 = 100 + (101 - 100) * frequencySmoothingFactorP0 :=
  ⟨(guitar_c5 100 110).1 (by rw [abs_110_sub_100]; norm_num),
   (guitar_c5 100 101).2 (by rw [abs_101_sub_100]; norm_num)⟩

/-- Claim C6: the guarded cents converter returns `1200 * log2(detected /
target)` for positive detected frequencies and 0 for non-positive ones, and
its caller treats a non-positive (or absent) frequency as absence of
information: `updateTuning` then clears the tuned flag and the confirmation
timer before any tolerance comparison, so no in-tolerance judgment arises. -/
theorem guitar_c6 :
    (∀ d t : ℝ, 0 < d → frequencyToCents2 d t = 1200 * Real.logb 2 (d / t)) ∧
    (∀ d t : ℝ, d ≤ 0 → frequencyToCents2 d t = 0) ∧
    (∀ (s : Tuner2State) (f : ℝ), f ≤ 0 →
      (updateTuning2 s (some f)).isTuned = false ∧
      (updateTuning2 s (some f)).tuningTimeout = none) ∧
    (∀ s : Tuner2State, (updateTuning2 s none).isTuned = false ∧
      (updateTuning2 s none).tuningTimeout = none) :=
  ⟨frequencyToCents2_pos, frequencyToCents2_nonpos, updateTuning2_nonpos,
    updateTuning2_none⟩

/-- Witness for C6: concrete instances of all four parts. -/
theorem guitar_c6_witness :
    frequencyToCents2 2 1 = 1200 * Real.logb 2 (2 / 1) ∧
    frequencyToCents2 (-1) 110 = 0 ∧
    (updateTuning2 ⟨0, true, false, some ()⟩ (some (-1))).isTuned = false ∧
    (updateTuning2 ⟨0, true, false, some ()⟩ (some (-1))).tuningTimeout = none ∧
    (updateTuning2 ⟨0, true, false, some ()⟩ none).isTuned = false ∧
    (updateTuning2 ⟨0, true, false, some ()⟩ none).tuningTimeout = none := by
  obtain ⟨h3a, h3b⟩ := guitar_c6.2.2.1 ⟨0, true, false, some ()⟩ (-1) (by norm_num)
  obtain ⟨h4a, h4b⟩ := guitar_c6.2.2.2 ⟨0, true, false, some ()⟩
  exact ⟨guitar_c6.1 2 1 (by norm_num), guitar_c6.2.1 (-1) 110 (by norm_num),
    h3a, h3b, h4a, h4b⟩

/-- Counterexample for C7: malformed input is not rejected with a descriptive
error: a zero-length frame and a non-positive sample rate both make
`detectPitch` silently return no pitch. -/
theorem guitar_c7_counterexample :
    detectPitch [] 48000 = none ∧ detectPitch (List.replicate 18 1) 0 = none :=
  ⟨detectPitch_empty 48000, detectPitch_nonpos_sr _ 0 le_rfl⟩

/-- Claim C7 (amended): the core has no error channel for malformed input:
`detectPitch` yields no pitch for every zero-length frame, and for every
non-positive sample rate (any frame), because the lag-to-frequency conversion
then produces an out-of-band candidate that the band filter rejects. -/
theorem guitar_c7 :
    (∀ sr : ℝ, detectPitch [] sr = none) ∧
    (∀ (buf : List ℝ) (sr : ℝ), sr ≤ 0 → detectPitch buf sr = none) :=
  ⟨detectPitch_empty, detectPitch_nonpos_sr⟩

/-- Witness for C7: the amended claim evaluated at a concrete silent call. -/
theorem guitar_c7_witness :
    detectPitch [] 44100 = none ∧ detectPitch (List.replicate 32 1) (-1) = none :=
  ⟨guitar_c7.1 44100, guitar_c7.2 (List.replicate 32 1) (-1) (by norm_num)⟩

/-- Claim C8: for positive frequencies, zero cents deviation forces exact
equality with the target (round trip of the cents formula at zero). -/
theorem guitar_c8 (f t : ℝ) (hf : 0 < f) (ht : 0 < t)
    (h : frequencyToCents f t = 0) : f = t :=
  frequencyToCents_eq_zero hf ht h

/-- Witness for C8 at 440 Hz against a 440 Hz target. -/
theorem guitar_c8_witness : frequencyToCents 440 440 = 0 ∧ (440 : ℝ) = 440 :=
  ⟨frequencyToCents_self,
    guitar_c8 440 440 (by norm_num) (by norm_num) frequencyToCents_self⟩

/-- Claim C9: every reachable session state keeps the target index in 0..5
and the all-tuned flag forces index 5; `moveToNextString` increments the
index exactly when it is strictly below 5 and otherwise sets the flag
leaving the index unchanged (at 5); reset returns the index to 0 and clears
the flag. -/
theorem guitar_c9 :
    (∀ s : TunerState, Reachable s → s.currentStringIndex ≤ 5 ∧
      (s.allStringsTuned = true → s.currentStringIndex = 5)) ∧
    (∀ s : TunerState, s.currentStringIndex < 5 →
      (moveToNextString s).currentStringIndex = s.currentStringIndex + 1 ∧
      (moveToNextString s).allStringsTuned = s.allStringsTuned) ∧
    (∀ s : TunerState, ¬s.currentStringIndex < 5 →
      (moveToNextString s).currentStringIndex = s.currentStringIndex ∧
      (moveToNextString s).allStringsTuned = true) ∧
    (∀ s : TunerState, (resetTuning s).currentStringIndex = 0 ∧
      (resetTuning s).allStringsTuned = false) := by
  refine ⟨?_, ?_, ?_, fun s => ⟨rfl, rfl⟩⟩
  · intro s hs
    have h := reachable_inv hs
    exact ⟨h.1, h.2.1⟩
  · intro s h
    rw [moveToNextString_lt s h]
    exact ⟨rfl, rfl⟩
  · intro s h
    rw [moveToNextString_last s h]
    exact ⟨rfl, rfl⟩

/-- Witness for C9 at the initial state, at the final trace state (index 5,
where `moveToNextString` sets the flag), and for reset. -/
theorem guitar_c9_witness :
    (initState.currentStringIndex ≤ 5 ∧
      (initState.allStringsTuned = true → initState.currentStringIndex = 5)) ∧
    ((moveToNextString initState).currentStringIndex = initState.currentStringIndex + 1 ∧
      (moveToNextString initState).allStringsTuned = initState.allStringsTuned) ∧
    ((moveToNextString ws17).currentStringIndex = ws17.currentStringIndex ∧
      (moveToNextString ws17).allStringsTuned = true) ∧
    ((resetTuning ws17).currentStringIndex = 0 ∧
      (resetTuning ws17).allStringsTuned = false) := by
  have h5 : ¬ws17.currentStringIndex < 5 := by
    rw [ws17_eq]
    decide
  exact ⟨guitar_c9.1 initState Reachable.init,
    guitar_c9.2.1 initState (by decide),
    guitar_c9.2.2.1 ws17 h5,
    guitar_c9.2.2.2 ws17⟩

/-- Claim C10: in the estimator band 50..400 Hz the two note-naming
implementations agree: `getNoteName` (single modular lookup, no
negative-modulo correction) and `frequencyToNote` (with the correction)
return the same name, one of the twelve chromatic names of `NOTE_NAMES`. -/
theorem guitar_c10 (f : ℝ) (h50 : 50 ≤ f) (_h400 : f ≤ 400) :
    ∃ n : String, n ∈ NOTE_NAMES ∧ getNoteName f = some n ∧
      ∃ info : NoteInfo, frequencyToNote f = some info ∧ info.name = some n :=
  noteNames_agree f h50

/-- Witness for C10 at 110 Hz (the A string). -/
theorem guitar_c10_witness :
    ∃ n : String, n ∈ NOTE_NAMES ∧ getNoteName 110 = some n ∧
      ∃ info : NoteInfo, frequencyToNote 110 = some info ∧ info.name = some n :=
  guitar_c10 110 (by norm_num) (by norm_num)
